import Mathlib

/-!
Verification of the client-side security and chat-synchronization layer of
the nox-app repository (src/lib/security.ts, src/lib/chat-context.tsx, the
API client and the auth context).

The TypeScript code is shallowly embedded: each async function becomes a
pure Lean function over an explicit state, with the outcomes of external
collaborators (the underlying `expo-secure-store` backend, the crypto
digest, the network) passed in as parameters.  A computation that may
throw across its public boundary is modelled with `Except Unit` (the
`.error` case is an escaping exception); JavaScript truthiness on strings
is modelled as the empty-string test.
-/

namespace Nox

/-- JavaScript `s.substring(0, n)` (truncation of a string to its first
`n` characters). -/
def takeChars (s : String) (n : Nat) : String := String.mk (s.toList.take n)

/-! ### Secure local store (src/lib/security.ts, SecureStorage) -/

/-- The integrity envelope `\x7bv, t, h\x7d` produced by `SecureStorage.setItem`:
value, timestamp string, and truncated hash. -/
structure Envelope where
  v : String
  t : String
  h : String
deriving DecidableEq, Repr

/-- The JSON text `JSON.stringify(\x7bv, t, h\x7d)` of an envelope (fields in the
order the source writes them; the stored values contain no characters that
JSON would escape in the runs exercised here). -/
def encodeEnvelope (e : Envelope) : String :=
  "\x7b\"v\":\"" ++ e.v ++ "\",\"t\":\"" ++ e.t ++ "\",\"h\":\"" ++ e.h ++ "\"\x7d"

/-- A raw value held by the underlying `expo-secure-store`, at the level of
`JSON.parse`: either text that does not parse as an envelope object, or the
JSON text of an envelope. -/
inductive StoredText where
  | plain (s : String)
  | envText (e : Envelope)
deriving DecidableEq, Repr

/-- The literal string a `StoredText` stands for (what `getItemAsync`
returns and `return stored` hands back). -/
def renderStored : StoredText → String
  | .plain s => s
  | .envText e => encodeEnvelope e

/-- The underlying `expo-secure-store` backend: an association list of
keys to stored text, plus flags saying whether its read / write / delete
primitives currently throw. -/
structure Backend where
  data : List (String × StoredText)
  readFails : Bool
  writeFails : Bool
  deleteFails : Bool
deriving DecidableEq, Repr

/-- `SecureStore.getItemAsync key`: `.error` models the promise rejecting. -/
def Backend.getRaw (b : Backend) (k : String) : Except Unit (Option StoredText) :=
  if b.readFails then .error ()
  else .ok ((b.data.find? (fun p => p.1 = k)).map Prod.snd)

/-- `SecureStore.setItemAsync key value`. -/
def Backend.setRaw (b : Backend) (k : String) (v : StoredText) : Except Unit Backend :=
  if b.writeFails then .error ()
  else .ok ⟨(k, v) :: b.data.filter (fun p => p.1 ≠ k), b.readFails, b.writeFails, b.deleteFails⟩

/-- `SecureStore.deleteItemAsync key`. -/
def Backend.delRaw (b : Backend) (k : String) : Except Unit Backend :=
  if b.deleteFails then .error ()
  else .ok ⟨b.data.filter (fun p => p.1 ≠ k), b.readFails, b.writeFails, b.deleteFails⟩

/-- `SecureStorage.setItem(key, value)`.  `H` is the SHA-256 digest (hex
string) of `expo-crypto`, `cryptoAvail` whether `getCrypto()` returned a
module, `now` the value of `Date.now()`.  The `catch` block of the source
retries `SecureStore.setItemAsync(key, value)` outside any try, so a
failure of that fallback write escapes as an exception (`.error`). -/
def SecureStorage.setItem (H : String → String) (cryptoAvail : Bool) (now : Nat)
    (b : Backend) (k v : String) : Except Unit Backend :=
  let attempt : Except Unit Backend :=
    if cryptoAvail then
      let t := toString now
      let h := takeChars (H (v ++ ":" ++ t)) 16
      b.setRaw k (.envText ⟨v, t, h⟩)
    else
      b.setRaw k (.plain v)
  match attempt with
  | .ok b2 => .ok b2
  | .error _ => b.setRaw k (.plain v)

/-- `SecureStorage.getItem(key)`.  Returns the possibly-updated backend and
the value; the outer catch converts a read failure into `null`, so the
result is always `.ok`.  The truthiness test `parsed.v && parsed.t &&
parsed.h` is the conjunction of non-emptiness tests; `if (!stored)` is the
emptiness test on the raw text.  A rejection of the tamper-path
`deleteItemAsync` happens inside the inner try, so the inner catch
swallows it and execution falls through to `return stored` — the raw
envelope text, with the key left in place. -/
def SecureStorage.getItem (H : String → String) (cryptoAvail : Bool)
    (b : Backend) (k : String) : Except Unit (Backend × Option String) :=
  match b.getRaw k with
  | .error _ => .ok (b, none)
  | .ok none => .ok (b, none)
  | .ok (some st) =>
    if renderStored st = "" then .ok (b, none)
    else
      match st with
      | .plain s => .ok (b, some s)
      | .envText e =>
        if e.v ≠ "" ∧ e.t ≠ "" ∧ e.h ≠ "" then
          if cryptoAvail then
            if takeChars (H (e.v ++ ":" ++ e.t)) 16 ≠ e.h then
              match b.delRaw k with
              | .ok b2 => .ok (b2, none)
              | .error _ => .ok (b, some (renderStored st))
            else .ok (b, some e.v)
          else .ok (b, some e.v)
        else .ok (b, some (renderStored st))

/-- `SecureStorage.deleteItem(key)`: failures of the underlying delete are
swallowed. -/
def SecureStorage.deleteItem (b : Backend) (k : String) : Except Unit Backend :=
  match b.delRaw k with
  | .ok b2 => .ok b2
  | .error _ => .ok b

/-- `SecureStorage.clear(keys)`: each delete carries its own
`.catch(() => \x7b\x7d)`, so every failure is swallowed. -/
def SecureStorage.clear (b : Backend) (keys : List String) : Except Unit Backend :=
  .ok (keys.foldl (fun acc k =>
    match acc.delRaw k with
    | .ok b2 => b2
    | .error _ => acc) b)

/-! ### Rate limiter (src/lib/security.ts, class RateLimiter) -/

/-- The `RateLimiter` class: per-key attempt timestamps plus the fixed
window and cap.  Timestamps are integers (JS millisecond clock values). -/
structure RateLimiter where
  attempts : List (String × List Int)
  windowMs : Int
  maxAttempts : Nat
deriving DecidableEq, Repr

/-- `this.attempts.get(key) || []`. -/
def RateLimiter.getFor (rl : RateLimiter) (key : String) : List Int :=
  ((rl.attempts.find? (fun p => p.1 = key)).map Prod.snd).getD []

/-- `this.attempts.set(key, l)`. -/
def RateLimiter.setFor (rl : RateLimiter) (key : String) (l : List Int) : RateLimiter :=
  ⟨(key, l) :: rl.attempts.filter (fun p => p.1 ≠ key), rl.windowMs, rl.maxAttempts⟩

/-- `canAttempt(key)` at clock value `now`: prunes to the attempts with
`now - t < windowMs`, stores the pruned list back, and returns whether the
remaining count is below `maxAttempts`. -/
def RateLimiter.canAttempt (rl : RateLimiter) (now : Int) (key : String) :
    RateLimiter × Bool :=
  let recent := (rl.getFor key).filter (fun t => now - t < rl.windowMs)
  (rl.setFor key recent, decide (recent.length < rl.maxAttempts))

/-- `recordAttempt(key)` at clock value `now`: appends unconditionally. -/
def RateLimiter.recordAttempt (rl : RateLimiter) (now : Int) (key : String) : RateLimiter :=
  rl.setFor key (rl.getFor key ++ [now])

/-- `reset(key)`. -/
def RateLimiter.reset (rl : RateLimiter) (key : String) : RateLimiter :=
  ⟨rl.attempts.filter (fun p => p.1 ≠ key), rl.windowMs, rl.maxAttempts⟩

/-! ### Generic helper lemmas -/

/-- The envelope JSON text is never the empty string. -/
theorem encodeEnvelope_ne_empty (e : Envelope) : encodeEnvelope e ≠ "" := by
  intro hc
  have h := congrArg String.length hc
  simp [encodeEnvelope, String.length_append] at h
  exact absurd h.2 (by decide)

/-- `Nat.toDigitsCore` never shrinks its accumulator. -/
theorem toDigitsCore_len_le (base : Nat) (f n : Nat) (ds : List Char) :
    ds.length ≤ (Nat.toDigitsCore base f n ds).length := by
  induction f generalizing n ds with
  | zero => simp [Nat.toDigitsCore]
  | succ f ih =>
    simp only [Nat.toDigitsCore]
    by_cases h : n / base = 0
    · simp [h]
    · simp only [h, if_neg, if_false]
      have h2 := ih (n / base) (Nat.digitChar (n % base) :: ds)
      simp only [List.length_cons] at h2
      omega

/-- The decimal rendering of a `Nat` (the model of
`Date.now().toString()`) is never empty. -/
theorem natToString_ne_empty (n : Nat) : toString n ≠ "" := by
  have h1 : 1 ≤ (Nat.toDigits 10 n).length := by
    rw [Nat.toDigits]
    simp only [Nat.toDigitsCore]
    by_cases h : n / 10 = 0
    · simp [h]
    · simp only [h, if_neg, if_false]
      have h2 := toDigitsCore_len_le 10 n (n / 10) [Nat.digitChar (n % 10)]
      simp only [List.length_cons, List.length_nil] at h2
      omega
  intro hc
  have h2 : (toString n).length = (Nat.toDigits 10 n).length := rfl
  rw [hc] at h2
  simp at h2
  omega

/-- Looking a key up after filtering that key out finds nothing. -/
theorem find?_filter_ne {α : Type} (l : List (String × α)) (k : String) :
    (l.filter (fun p => p.1 ≠ k)).find? (fun p => p.1 = k) = none := by
  rw [List.find?_eq_none]
  intro x hx
  rw [List.mem_filter] at hx
  simpa using hx.2

/-! ### Claims about the secure local store -/

/-- Claim C1: for a key holding a well-formed envelope (all three fields
non-empty, which is what `parsed.v && parsed.t && parsed.h` tests) whose
recomputed truncated hash no longer matches `h`, `SecureStorage.getItem`
with hashing available deletes the key from the underlying store and
returns absent; the mismatch is never surfaced as an error (the result is
`.ok`, not `.error`). -/
theorem secure_get_tamper_deletes (H : String → String) (b : Backend) (k : String)
    (e : Envelope)
    (hread : b.readFails = false) (hdel : b.deleteFails = false)
    (hstored : b.getRaw k = .ok (some (.envText e)))
    (hv : e.v ≠ "") (ht : e.t ≠ "") (hh : e.h ≠ "")
    (hmis : takeChars (H (e.v ++ ":" ++ e.t)) 16 ≠ e.h) :
    SecureStorage.getItem H true b k =
      .ok (⟨b.data.filter (fun p => p.1 ≠ k), b.readFails, b.writeFails, b.deleteFails⟩, none) ∧
    Backend.getRaw ⟨b.data.filter (fun p => p.1 ≠ k), b.readFails, b.writeFails, b.deleteFails⟩ k
      = .ok none := by
  constructor
  · simp only [SecureStorage.getItem, hstored]
    rw [if_neg (by simpa [renderStored] using encodeEnvelope_ne_empty e)]
    rw [if_pos ⟨hv, ht, hh⟩, if_pos trivial, if_pos hmis]
    simp [Backend.delRaw, hdel]
  · simp [Backend.getRaw, hread, find?_filter_ne]

/-- Concrete run of `secure_get_tamper_deletes`: a tampered session-token
envelope is wiped and read back as absent. -/
theorem secure_get_tamper_deletes_witness :
    SecureStorage.getItem (fun _ => "0123456789abcdef0000") true
      ⟨[("nox_session_token", .envText ⟨"tampered", "1700000000000", "deadbeefdeadbeef"⟩)],
        false, false, false⟩ "nox_session_token" =
      .ok (⟨[], false, false, false⟩, none) ∧
    Backend.getRaw ⟨[], false, false, false⟩ "nox_session_token" = .ok none := by
  have h := secure_get_tamper_deletes (fun _ => "0123456789abcdef0000")
    ⟨[("nox_session_token", .envText ⟨"tampered", "1700000000000", "deadbeefdeadbeef"⟩)],
      false, false, false⟩ "nox_session_token"
    ⟨"tampered", "1700000000000", "deadbeefdeadbeef"⟩
    rfl rfl rfl (by decide) (by decide) (by decide) (by decide)
  simpa using h

/-- Claim C2, counterexample: the round-trip fails at the empty string.
`setItem("k", "")` stores an envelope whose `v` field is `""`; on read,
the truthiness test `parsed.v && parsed.t && parsed.h` rejects it as an
envelope and `getItem` returns the raw JSON text of the envelope, not
`""`. -/
theorem secure_roundtrip_empty_value_cex :
    SecureStorage.setItem (fun _ => "0123456789abcdef0000") true 5
      ⟨[], false, false, false⟩ "k" "" =
      .ok ⟨[("k", .envText ⟨"", "5", "0123456789abcdef"⟩)], false, false, false⟩ ∧
    SecureStorage.getItem (fun _ => "0123456789abcdef0000") true
      ⟨[("k", .envText ⟨"", "5", "0123456789abcdef"⟩)], false, false, false⟩ "k" =
      .ok (⟨[("k", .envText ⟨"", "5", "0123456789abcdef"⟩)], false, false, false⟩,
        some (encodeEnvelope ⟨"", "5", "0123456789abcdef"⟩)) ∧
    encodeEnvelope ⟨"", "5", "0123456789abcdef"⟩ ≠ "" :=
  ⟨rfl, rfl, by decide⟩

/-- Claim C2, amended: for every key and every NON-EMPTY string `v`, with
hashing available (and a digest whose first 16 characters are not the
empty string, as with SHA-256 hex), `setItem(k, v)` followed by
`getItem(k)` with no intervening mutation returns exactly `v`, and
neither operation throws. -/
theorem secure_roundtrip_nonempty (H : String → String) (now : Nat) (b : Backend)
    (k v : String)
    (hwrite : b.writeFails = false) (hread : b.readFails = false)
    (hv : v ≠ "") (hh : takeChars (H (v ++ ":" ++ toString now)) 16 ≠ "") :
    SecureStorage.setItem H true now b k v =
      .ok ⟨(k, .envText ⟨v, toString now, takeChars (H (v ++ ":" ++ toString now)) 16⟩) ::
            b.data.filter (fun p => p.1 ≠ k),
            b.readFails, b.writeFails, b.deleteFails⟩ ∧
    SecureStorage.getItem H true
      ⟨(k, .envText ⟨v, toString now, takeChars (H (v ++ ":" ++ toString now)) 16⟩) ::
            b.data.filter (fun p => p.1 ≠ k),
            b.readFails, b.writeFails, b.deleteFails⟩ k =
      .ok (⟨(k, .envText ⟨v, toString now, takeChars (H (v ++ ":" ++ toString now)) 16⟩) ::
            b.data.filter (fun p => p.1 ≠ k),
            b.readFails, b.writeFails, b.deleteFails⟩, some v) := by
  have hget : Backend.getRaw
      ⟨(k, .envText ⟨v, toString now, takeChars (H (v ++ ":" ++ toString now)) 16⟩) ::
        b.data.filter (fun p => p.1 ≠ k), false, b.writeFails, b.deleteFails⟩ k =
      .ok (some (.envText ⟨v, toString now, takeChars (H (v ++ ":" ++ toString now)) 16⟩)) := by
    simp only [Backend.getRaw]
    rw [if_neg (by simp)]
    rw [List.find?_cons_of_pos _ (by simp)]
    rfl
  constructor
  · simp [SecureStorage.setItem, Backend.setRaw, hwrite]
  · rw [hread]
    simp only [SecureStorage.getItem, hget, renderStored]
    rw [if_neg (encodeEnvelope_ne_empty
      ⟨v, toString now, takeChars (H (v ++ ":" ++ toString now)) 16⟩)]
    rw [if_pos ⟨hv, natToString_ne_empty now, hh⟩, if_pos trivial,
      if_neg (fun hcon => hcon rfl)]

/-- Concrete run of `secure_roundtrip_nonempty` at `v = "x"`. -/
theorem secure_roundtrip_nonempty_witness :
    SecureStorage.setItem (fun _ => "0123456789abcdef0000") true 5
      ⟨[], false, false, false⟩ "k" "x" =
      .ok ⟨[("k", .envText ⟨"x", "5", "0123456789abcdef"⟩)], false, false, false⟩ ∧
    SecureStorage.getItem (fun _ => "0123456789abcdef0000") true
      ⟨[("k", .envText ⟨"x", "5", "0123456789abcdef"⟩)], false, false, false⟩ "k" =
      .ok (⟨[("k", .envText ⟨"x", "5", "0123456789abcdef"⟩)], false, false, false⟩,
        some "x") := by
  have h := secure_roundtrip_nonempty (fun _ => "0123456789abcdef0000") 5
    ⟨[], false, false, false⟩ "k" "x" rfl rfl (by decide) (by decide)
  simpa using h

/-- Truth of `e` being a non-exceptional result. -/
def exceptOk {ε α : Type} : Except ε α → Bool
  | .ok _ => true
  | .error _ => false

/-- Claim C7, counterexample: when the underlying store's write primitive
fails, the `catch` block of `setItem` retries
`SecureStore.setItemAsync(key, value)` outside any try, so the second
failure escapes `setItem` as an exception instead of a silent no-op. -/
theorem secure_setItem_throw_cex :
    SecureStorage.setItem (fun _ => "0123456789abcdef0000") true 5
      ⟨[], false, true, false⟩ "k" "v" = .error () := rfl

/-- Claim C7, amended: `getItem`, `deleteItem` and `clear` never throw
across the public boundary (read failures degrade to an absent value,
delete failures are swallowed); `setItem` does not throw exactly as long
as the underlying write primitive succeeds — when the write fails, both
the envelope write and the unprotected fallback raw write fail and the
exception escapes. -/
theorem secure_storage_boundary (H : String → String) (ca : Bool) (now : Nat)
    (b : Backend) (k v : String) (keys : List String) :
    exceptOk (SecureStorage.getItem H ca b k) = true ∧
    exceptOk (SecureStorage.deleteItem b k) = true ∧
    exceptOk (SecureStorage.clear b keys) = true ∧
    (exceptOk (SecureStorage.setItem H ca now b k v) = true ↔ b.writeFails = false) := by
  refine ⟨?_, ?_, rfl, ?_⟩
  · simp only [SecureStorage.getItem]
    repeat' split
    all_goals rfl
  · simp only [SecureStorage.deleteItem]
    repeat' split
    all_goals rfl
  · cases hw : b.writeFails <;>
      cases ca <;>
      simp [SecureStorage.setItem, Backend.setRaw, hw, exceptOk]

/-- Concrete run of `secure_storage_boundary` on a fault-free backend. -/
theorem secure_storage_boundary_witness :
    exceptOk (SecureStorage.getItem (fun _ => "0123456789abcdef0000") true
      ⟨[], false, false, false⟩ "k") = true ∧
    exceptOk (SecureStorage.deleteItem ⟨[], false, false, false⟩ "k") = true ∧
    exceptOk (SecureStorage.clear ⟨[], false, false, false⟩ ["a", "b"]) = true ∧
    exceptOk (SecureStorage.setItem (fun _ => "0123456789abcdef0000") true 5
      ⟨[], false, false, false⟩ "k" "v") = true := by
  have h := secure_storage_boundary (fun _ => "0123456789abcdef0000") true 5
    ⟨[], false, false, false⟩ "k" "v" ["a", "b"]
  exact ⟨h.1, h.2.1, h.2.2.1, h.2.2.2.mpr rfl⟩

/-! ### Claims about the rate limiter -/

/-- Updating a key's history and reading it back gives the new history. -/
theorem getFor_setFor (rl : RateLimiter) (k : String) (l : List Int) :
    (rl.setFor k l).getFor k = l := by
  simp only [RateLimiter.getFor, RateLimiter.setFor]
  rw [List.find?_cons_of_pos _ (by simp)]
  rfl

/-- `recordAttempt` leaves the configured window unchanged. -/
theorem windowMs_recordAttempt (rl : RateLimiter) (now : Int) (k : String) :
    (rl.recordAttempt now k).windowMs = rl.windowMs := rfl

/-- `recordAttempt` leaves the configured cap unchanged. -/
theorem maxAttempts_recordAttempt (rl : RateLimiter) (now : Int) (k : String) :
    (rl.recordAttempt now k).maxAttempts = rl.maxAttempts := rfl

/-- Claim C3: for a limiter configured with `maxAttempts = 5` and
`windowMs = 60000`, `canAttempt` stores back the history pruned to the
window and answers `true` iff the pruned count is strictly below 5; after
exactly five `recordAttempt` calls within the window `canAttempt` is
`false`, and once the clock has advanced so that every attempt is at
least `windowMs` old it is `true` again. -/
theorem rateLimiter_window (rl : RateLimiter) (key : String)
    (now now2 t1 t2 t3 t4 t5 : Int)
    (hw : rl.windowMs = 60000) (hm : rl.maxAttempts = 5) :
    ((rl.canAttempt now key).2 = true ↔
        ((rl.getFor key).filter (fun t => now - t < 60000)).length < 5) ∧
    ((rl.canAttempt now key).1.getFor key =
        (rl.getFor key).filter (fun t => now - t < 60000)) ∧
    ((now - t1 < 60000 ∧ now - t2 < 60000 ∧ now - t3 < 60000 ∧ now - t4 < 60000 ∧
        now - t5 < 60000) →
      (((((((RateLimiter.mk [] 60000 5).recordAttempt t1 key).recordAttempt t2 key).recordAttempt
        t3 key).recordAttempt t4 key).recordAttempt t5 key).canAttempt now key).2 = false) ∧
    ((60000 ≤ now2 - t1 ∧ 60000 ≤ now2 - t2 ∧ 60000 ≤ now2 - t3 ∧ 60000 ≤ now2 - t4 ∧
        60000 ≤ now2 - t5) →
      (((((((RateLimiter.mk [] 60000 5).recordAttempt t1 key).recordAttempt t2 key).recordAttempt
        t3 key).recordAttempt t4 key).recordAttempt t5 key).canAttempt now2 key).2 = true) := by
  have hbase : (RateLimiter.mk [] 60000 5).getFor key = [] := rfl
  have hlist :
      ((((((RateLimiter.mk [] 60000 5).recordAttempt t1 key).recordAttempt t2 key).recordAttempt
        t3 key).recordAttempt t4 key).recordAttempt t5 key).getFor key =
      [t1, t2, t3, t4, t5] := by
    simp [RateLimiter.recordAttempt, getFor_setFor, hbase]
  refine ⟨?_, ?_, ?_, ?_⟩
  · simp [RateLimiter.canAttempt, hw, hm]
  · simp [RateLimiter.canAttempt, getFor_setFor, hw]
  · rintro ⟨h1, h2, h3, h4, h5⟩
    simp [RateLimiter.canAttempt, hlist, windowMs_recordAttempt, maxAttempts_recordAttempt,
      h1, h2, h3, h4, h5]
  · rintro ⟨h1, h2, h3, h4, h5⟩
    have n1 : ¬(now2 - t1 < 60000) := by omega
    have n2 : ¬(now2 - t2 < 60000) := by omega
    have n3 : ¬(now2 - t3 < 60000) := by omega
    have n4 : ¬(now2 - t4 < 60000) := by omega
    have n5 : ¬(now2 - t5 < 60000) := by omega
    simp [RateLimiter.canAttempt, hlist, windowMs_recordAttempt, maxAttempts_recordAttempt,
      n1, n2, n3, n4, n5]

/-- Concrete run of `rateLimiter_window`: five attempts at times 0..4,
checked at time 100 (denied) and again at time 70000 (allowed). -/
theorem rateLimiter_window_witness :
    (((((((RateLimiter.mk [] 60000 5).recordAttempt 0 "signIn").recordAttempt 1
      "signIn").recordAttempt 2 "signIn").recordAttempt 3 "signIn").recordAttempt 4
      "signIn").canAttempt 100 "signIn").2 = false ∧
    (((((((RateLimiter.mk [] 60000 5).recordAttempt 0 "signIn").recordAttempt 1
      "signIn").recordAttempt 2 "signIn").recordAttempt 3 "signIn").recordAttempt 4
      "signIn").canAttempt 70000 "signIn").2 = true := by
  have h := rateLimiter_window (RateLimiter.mk [] 60000 5) "signIn" 100 70000 0 1 2 3 4 rfl rfl
  exact ⟨h.2.2.1 (by norm_num), h.2.2.2 (by norm_num)⟩

/-! ### API request layer (src/lib/api-client.ts, ApiClient.handleRequest) -/

/-- JavaScript `x || fallback` on an optional string (`undefined`, `null`
and the empty string are falsy). -/
def jsOr (x : Option String) (fallback : String) : String :=
  match x with
  | some s => if s = "" then fallback else s
  | none => fallback

/-- The uniform result shape `\x7b data?, error?, status \x7d` returned by
every verb of the API client. -/
structure ApiResponse (α : Type) where
  data : Option α
  status : Int
  error : Option String
deriving DecidableEq, Repr

/-- Outcome of the try-block of `handleRequest` (secure-header
computation, `fetch`, `response.json()`): either some step threw (with
`error.message` when the thrown value is an `Error` instance), or the
fetch resolved with an HTTP status and — when the body parsed as JSON —
the parsed body. -/
inductive TryOutcome (α : Type) where
  | threw (msg : Option String)
  | responded (status : Int) (parsed : Option α)
deriving DecidableEq, Repr

/-- `ApiClient.handleRequest(method, endpoint, body)`.  `getErr` reads the
`error` field out of a parsed body (`data?.error`), `dev` is `__DEV__`,
`net` the outcome of the guarded block.  Returns the rate-limiter state,
whether the code proceeded past the limiter into the try-block (the
network attempt), and the uniform result.  The function is total: every
failure mode resolves to a result. -/
def ApiClient.handleRequest (α : Type) (getErr : α → Option String) (dev : Bool)
    (rl : RateLimiter) (now : Int) (method endpoint : String)
    (net : TryOutcome α) : RateLimiter × Bool × ApiResponse α :=
  let c := rl.canAttempt now "api"
  if c.2 then
    let rl2 := c.1.recordAttempt now "api"
    match net with
    | .threw msg =>
        (rl2, true,
          ⟨none, 0, some (if dev then msg.getD "Network error" else "Network error")⟩)
    | .responded status parsed =>
        (rl2, true,
          ⟨parsed, status,
            if 200 ≤ status ∧ status ≤ 299 then none
            else some (jsOr (parsed.bind getErr) "Request failed")⟩)
  else
    (c.1, false, ⟨none, 429, some "Too many requests. Please wait."⟩)

/-- `ApiClient.get(endpoint)`. -/
def ApiClient.get (α : Type) (getErr : α → Option String) (dev : Bool)
    (rl : RateLimiter) (now : Int) (endpoint : String) (net : TryOutcome α) :
    RateLimiter × Bool × ApiResponse α :=
  ApiClient.handleRequest α getErr dev rl now "GET" endpoint net

/-- `ApiClient.post(endpoint, body)`. -/
def ApiClient.post (α : Type) (getErr : α → Option String) (dev : Bool)
    (rl : RateLimiter) (now : Int) (endpoint : String) (net : TryOutcome α) :
    RateLimiter × Bool × ApiResponse α :=
  ApiClient.handleRequest α getErr dev rl now "POST" endpoint net

/-- `ApiClient.put(endpoint, body)`. -/
def ApiClient.put (α : Type) (getErr : α → Option String) (dev : Bool)
    (rl : RateLimiter) (now : Int) (endpoint : String) (net : TryOutcome α) :
    RateLimiter × Bool × ApiResponse α :=
  ApiClient.handleRequest α getErr dev rl now "PUT" endpoint net

/-- `ApiClient.delete(endpoint)`. -/
def ApiClient.delete (α : Type) (getErr : α → Option String) (dev : Bool)
    (rl : RateLimiter) (now : Int) (endpoint : String) (net : TryOutcome α) :
    RateLimiter × Bool × ApiResponse α :=
  ApiClient.handleRequest α getErr dev rl now "DELETE" endpoint net

/-- Claim C4: for every request through the client (every verb funnels
into `handleRequest`), a denial by the generic limiter under key `"api"`
short-circuits with a synthetic 429 result and no network attempt; and
the call never throws — an exception inside the guarded block becomes
`status = 0` with the generic production message, and a resolved fetch
becomes the uniform result regardless of HTTP status. -/
theorem api_request_boundary (α : Type) (getErr : α → Option String)
    (rl : RateLimiter) (now : Int) (method endpoint : String) (net : TryOutcome α) :
    ((rl.canAttempt now "api").2 = false →
      ApiClient.handleRequest α getErr false rl now method endpoint net =
        ((rl.canAttempt now "api").1, false,
          ⟨none, 429, some "Too many requests. Please wait."⟩)) ∧
    ((rl.canAttempt now "api").2 = true →
      (∀ msg, net = .threw msg →
        ApiClient.handleRequest α getErr false rl now method endpoint net =
          ((rl.canAttempt now "api").1.recordAttempt now "api", true,
            ⟨none, 0, some "Network error"⟩)) ∧
      (∀ status parsed, net = .responded status parsed →
        ApiClient.handleRequest α getErr false rl now method endpoint net =
          ((rl.canAttempt now "api").1.recordAttempt now "api", true,
            ⟨parsed, status,
              if 200 ≤ status ∧ status ≤ 299 then none
              else some (jsOr (parsed.bind getErr) "Request failed")⟩))) := by
  refine ⟨fun hdeny => ?_, fun hallow => ⟨?_, ?_⟩⟩
  · simp [ApiClient.handleRequest, hdeny]
  · rintro msg rfl
    simp [ApiClient.handleRequest, hallow]
  · rintro status parsed rfl
    simp [ApiClient.handleRequest, hallow]

/-- Concrete run of `api_request_boundary`: with ten attempts already in
the one-second window the call is denied with a synthetic 429, and on a
fresh limiter an exception inside the block becomes status 0. -/
theorem api_request_boundary_witness :
    ApiClient.handleRequest Unit (fun _ => none) false
      ⟨[("api", [0, 0, 0, 0, 0, 0, 0, 0, 0, 0])], 1000, 10⟩ 5 "GET" "/api/groups"
      (.responded 200 none) =
      (((⟨[("api", [0, 0, 0, 0, 0, 0, 0, 0, 0, 0])], 1000, 10⟩ :
          RateLimiter).canAttempt 5 "api").1, false,
        ⟨none, 429, some "Too many requests. Please wait."⟩) ∧
    ApiClient.handleRequest Unit (fun _ => none) false
      ⟨[], 1000, 10⟩ 5 "GET" "/api/groups" (.threw (some "boom")) =
      (((⟨[], 1000, 10⟩ : RateLimiter).canAttempt 5 "api").1.recordAttempt 5 "api", true,
        ⟨none, 0, some "Network error"⟩) := by
  constructor
  · exact (api_request_boundary Unit (fun _ => none)
      ⟨[("api", [0, 0, 0, 0, 0, 0, 0, 0, 0, 0])], 1000, 10⟩ 5 "GET" "/api/groups"
      (.responded 200 none)).1 (by decide)
  · exact ((api_request_boundary Unit (fun _ => none)
      ⟨[], 1000, 10⟩ 5 "GET" "/api/groups" (.threw (some "boom"))).2 (by decide)).1
      (some "boom") rfl

/-! ### Input validation (src/lib/security.ts: sanitizeInput,
isValidEmail, validatePassword) -/

/-- JavaScript `s.toLowerCase()`. -/
def jsToLower (s : String) : String := String.mk (s.toList.map Char.toLower)

/-- JavaScript `s.trim()`. -/
def jsTrim (s : String) : String :=
  String.mk (((s.toList.dropWhile fun c => c.isWhitespace).reverse.dropWhile
    fun c => c.isWhitespace).reverse)

/-- JS word character `\w`, i.e. `[A-Za-z0-9_]`. -/
def isWordChar (c : Char) : Bool :=
  c.isUpper || c.isLower || c.isDigit || c == '_'

/-- Case-insensitive prefix test over character lists. -/
def ciStartsWith : List Char → List Char → Bool
  | [], _ => true
  | _ :: _, [] => false
  | p :: ps, c :: cs => (c.toLower == p.toLower) && ciStartsWith ps cs

/-- One global pass of `replace(/pat/gi, "")`: removes non-overlapping
case-insensitive occurrences left to right without rescanning removed
junctions.  The fuel only bounds recursion; `fuel = length` always
suffices since every step consumes at least one character. -/
def stripCIAux (pat : List Char) : Nat → List Char → List Char
  | 0, l => l
  | _ + 1, [] => []
  | fuel + 1, c :: cs =>
    if ciStartsWith pat (c :: cs) then stripCIAux pat fuel (cs.drop (pat.length - 1))
    else c :: stripCIAux pat fuel cs

/-- `replace(/pat/gi, "")` over a character list. -/
def stripCI (pat : List Char) (l : List Char) : List Char := stripCIAux pat l.length l

/-- One global pass of `replace(/on\w+=/gi, "")`: at each position, a
case-insensitive `on`, a maximal non-empty run of word characters and an
`=` form a match (the run is maximal, and `=` is not a word character,
so no backtracking arises); otherwise scanning advances one character. -/
def stripOnAttrAux : Nat → List Char → List Char
  | 0, l => l
  | _ + 1, [] => []
  | _ + 1, [c] => [c]
  | fuel + 1, c1 :: c2 :: cs =>
    if c1.toLower == 'o' && c2.toLower == 'n' then
      match cs.takeWhile isWordChar, cs.dropWhile isWordChar with
      | _ :: _, '=' :: rest2 => stripOnAttrAux fuel rest2
      | _, _ => c1 :: stripOnAttrAux fuel (c2 :: cs)
    else c1 :: stripOnAttrAux fuel (c2 :: cs)

/-- `replace(/on\w+=/gi, "")` over a character list. -/
def stripOnAttr (l : List Char) : List Char := stripOnAttrAux l.length l

/-- `sanitizeInput(input)`: strips angle brackets, `javascript:`
occurrences and `on\w+=` event-handler patterns, trims, and truncates to
10000 characters. -/
def sanitizeInput (s : String) : String :=
  let s1 := String.mk (s.toList.filter (fun c => c ≠ '<' ∧ c ≠ '>'))
  let s2 := String.mk (stripCI "javascript:".toList s1.toList)
  let s3 := String.mk (stripOnAttr s2.toList)
  takeChars (jsTrim s3) 10000

/-- `isValidEmail(email)`: the anchored regex
`[^\s@]+ @ [^\s@]+ \. [^\s@]+` (which forces exactly one `@`, and after
it a `.` with at least one non-whitespace non-`@` character on each
side) together with the 254-character cap. -/
def isValidEmail (s : String) : Bool :=
  let cs := s.toList
  let localPart := cs.takeWhile (fun c => c ≠ '@')
  match cs.dropWhile (fun c => c ≠ '@') with
  | '@' :: domain =>
    decide (localPart ≠ []) &&
    localPart.all (fun c => !c.isWhitespace) &&
    domain.all (fun c => !c.isWhitespace && decide (c ≠ '@')) &&
    decide (domain ≠ []) &&
    (domain.drop 1).dropLast.contains '.' &&
    decide (s.length ≤ 254)
  | _ => false

/-- `validatePassword(password)`: collects rule violations in source
order; valid iff there are none. -/
def validatePassword (p : String) : Bool × List String :=
  let errors :=
    (if p.length < 8 then ["Password must be at least 8 characters"] else []) ++
    (if 128 < p.length then ["Password must be less than 128 characters"] else []) ++
    (if p.toList.any (fun c => decide ('A' ≤ c) && decide (c ≤ 'Z')) then []
      else ["Password must contain an uppercase letter"]) ++
    (if p.toList.any (fun c => decide ('a' ≤ c) && decide (c ≤ 'z')) then []
      else ["Password must contain a lowercase letter"]) ++
    (if p.toList.any (fun c => decide ('0' ≤ c) && decide (c ≤ '9')) then []
      else ["Password must contain a number"])
  (errors.isEmpty, errors)

/-! ### Session/auth manager (the auth context: signIn, signUp) -/

/-- The remote calls `signIn` can perform. -/
inductive AuthCall where
  | signInEndpoint
  | profileFetch
deriving DecidableEq, Repr

/-- The result shape of `signIn` / `signUp`. -/
structure AuthResult where
  success : Bool
  error : Option String
  needsVerification : Bool
deriving DecidableEq, Repr

/-- Outcome of `authClient.signIn.email` (resp. `signUp.email`): the call
threw (with `error.message` when the thrown value is an `Error`), or it
resolved with `response.data?.user` and `response.error?.message`. -/
inductive AuthNet (υ : Type) where
  | threw (msg : Option String)
  | resolved (user : Option υ) (errMsg : Option String)

/-- Outcome of the profile `fetch` after a successful sign-in: threw, or
resolved with `profileRes.ok` and the parsed `profileData?.user`. -/
inductive ProfileNet (υ : Type) where
  | threw (msg : Option String)
  | resolved (ok : Bool) (user : Option υ)

/-- Whether `pat` occurs as a contiguous sublist of the argument
(`String.prototype.includes`). -/
def hasSubstr (pat : List Char) : List Char → Bool
  | [] => pat.isEmpty
  | c :: cs => pat.isPrefixOf (c :: cs) || hasSubstr pat cs

/-- `signIn(email, password)` of the auth context: rate-limit gate,
unconditional attempt recording, sanitization and validation, then the
remote sign-in and — on success — the profile fetch.  Returns the
limiter state, the remote calls made, the result value, and the user
stored into state (if any). -/
def signIn {υ : Type} (dev : Bool) (rl : RateLimiter) (now : Int)
    (email password : String) (net : AuthNet υ) (profile : ProfileNet υ) :
    RateLimiter × List AuthCall × AuthResult × Option υ :=
  let c := rl.canAttempt now "signIn"
  if c.2 = false then
    (c.1, [], ⟨false, some "Too many login attempts. Please wait a minute.", false⟩, none)
  else
    let rl2 := c.1.recordAttempt now "signIn"
    let sanitizedEmail := sanitizeInput (jsTrim (jsToLower email))
    if isValidEmail sanitizedEmail = false then
      (rl2, [], ⟨false, some "Invalid email format", false⟩, none)
    else if password = "" then
      (rl2, [], ⟨false, some "Password is required", false⟩, none)
    else
      match net with
      | .threw msg =>
          (rl2, [.signInEndpoint],
            ⟨false, some (if dev then msg.getD "Sign in failed" else "Sign in failed"),
              false⟩, none)
      | .resolved (some u) _ =>
          let rl3 := rl2.reset "signIn"
          match profile with
          | .threw msg =>
              (rl3, [.signInEndpoint, .profileFetch],
                ⟨false, some (if dev then msg.getD "Sign in failed" else "Sign in failed"),
                  false⟩, none)
          | .resolved true (some pu) =>
              (rl3, [.signInEndpoint, .profileFetch], ⟨true, none, false⟩, some pu)
          | .resolved true none =>
              (rl3, [.signInEndpoint, .profileFetch], ⟨true, none, false⟩, some u)
          | .resolved false _ =>
              (rl3, [.signInEndpoint, .profileFetch], ⟨true, none, false⟩, some u)
      | .resolved none errMsg =>
          let msg := jsOr errMsg "Sign in failed"
          if hasSubstr "verify".toList (jsToLower msg).toList then
            (rl2, [.signInEndpoint], ⟨false, some msg, true⟩, none)
          else
            (rl2, [.signInEndpoint], ⟨false, some msg, false⟩, none)

/-- `signUp(email, password, name)` of the auth context.  The `Bool`
component records whether the remote sign-up endpoint was called. -/
def signUp {υ : Type} (dev : Bool) (rl : RateLimiter) (now : Int)
    (email password name : String) (net : AuthNet υ) :
    RateLimiter × Bool × AuthResult :=
  let c := rl.canAttempt now "signUp"
  if c.2 = false then
    (c.1, false, ⟨false, some "Too many signup attempts. Please wait a minute.", false⟩)
  else
    let rl2 := c.1.recordAttempt now "signUp"
    let sanitizedEmail := sanitizeInput (jsTrim (jsToLower email))
    let sanitizedName := sanitizeInput (jsTrim name)
    if isValidEmail sanitizedEmail = false then
      (rl2, false, ⟨false, some "Invalid email format", false⟩)
    else if sanitizedName.length < 2 ∨ 50 < sanitizedName.length then
      (rl2, false, ⟨false, some "Name must be between 2 and 50 characters", false⟩)
    else if (validatePassword password).1 = false then
      (rl2, false, ⟨false, some ((validatePassword password).2.headD ""), false⟩)
    else
      match net with
      | .threw msg =>
          (rl2, true,
            ⟨false, some (if dev then msg.getD "Sign up failed" else "Sign up failed"), false⟩)
      | .resolved (some _) _ =>
          (rl2.reset "signUp", true, ⟨true, none, false⟩)
      | .resolved none errMsg =>
          (rl2, true, ⟨false, some (jsOr errMsg "Sign up failed"), false⟩)

/-- Claim C5: when the gate passes but the sanitized email fails the
format validation, `signIn` returns the validation failure and performs
no remote call — neither the sign-in endpoint nor the profile fetch
appears in the call list. -/
theorem signIn_validation_short_circuit {υ : Type} (dev : Bool) (rl : RateLimiter)
    (now : Int) (email password : String) (net : AuthNet υ) (profile : ProfileNet υ)
    (hallow : (rl.canAttempt now "signIn").2 = true)
    (hbad : isValidEmail (sanitizeInput (jsTrim (jsToLower email))) = false) :
    signIn dev rl now email password net profile =
      ((rl.canAttempt now "signIn").1.recordAttempt now "signIn", [],
        ⟨false, some "Invalid email format", false⟩, none) := by
  simp [signIn, hallow, hbad]

/-- Concrete run of `signIn_validation_short_circuit` at the spec's
example input `"not-an-email"`. -/
theorem signIn_validation_short_circuit_witness :
    @signIn Unit false ⟨[], 60000, 5⟩ 0 "not-an-email" "Abcdefg1"
      (AuthNet.resolved none none) (ProfileNet.resolved false none) =
      (((⟨[], 60000, 5⟩ : RateLimiter).canAttempt 0 "signIn").1.recordAttempt 0 "signIn", [],
        ⟨false, some "Invalid email format", false⟩, none) :=
  signIn_validation_short_circuit false ⟨[], 60000, 5⟩ 0 "not-an-email" "Abcdefg1"
    (AuthNet.resolved none none) (ProfileNet.resolved false none) (by decide) (by decide)

/-- Claim C9: the attempt is recorded before local validation runs, so
calls rejected purely by validation (invalid email or empty password for
`signIn`; invalid email, bad name length or weak password for `signUp`)
still consume one attempt of the auth budget — the resulting limiter
history is the pruned history with `now` appended — while making no
network call. -/
theorem auth_validation_consumes_attempt {υ : Type} (dev : Bool) (rl : RateLimiter)
    (now : Int) (email password name : String) (net : AuthNet υ) (profile : ProfileNet υ) :
    ((rl.canAttempt now "signIn").2 = true →
      isValidEmail (sanitizeInput (jsTrim (jsToLower email))) = false →
      (signIn dev rl now email password net profile).1 =
        (rl.canAttempt now "signIn").1.recordAttempt now "signIn" ∧
      (signIn dev rl now email password net profile).2.1 = ([] : List AuthCall) ∧
      ((signIn dev rl now email password net profile).1).getFor "signIn" =
        ((rl.getFor "signIn").filter (fun t => now - t < rl.windowMs)) ++ [now]) ∧
    ((rl.canAttempt now "signIn").2 = true →
      isValidEmail (sanitizeInput (jsTrim (jsToLower email))) = true →
      password = "" →
      (signIn dev rl now email password net profile).1 =
        (rl.canAttempt now "signIn").1.recordAttempt now "signIn" ∧
      (signIn dev rl now email password net profile).2.1 = ([] : List AuthCall)) ∧
    ((rl.canAttempt now "signUp").2 = true →
      isValidEmail (sanitizeInput (jsTrim (jsToLower email))) = true →
      (sanitizeInput (jsTrim name)).length < 2 →
      (signUp dev rl now email password name net).1 =
        (rl.canAttempt now "signUp").1.recordAttempt now "signUp" ∧
      (signUp dev rl now email password name net).2.1 = false ∧
      ((signUp dev rl now email password name net).1).getFor "signUp" =
        ((rl.getFor "signUp").filter (fun t => now - t < rl.windowMs)) ++ [now]) ∧
    ((rl.canAttempt now "signUp").2 = true →
      isValidEmail (sanitizeInput (jsTrim (jsToLower email))) = true →
      ¬((sanitizeInput (jsTrim name)).length < 2 ∨
        50 < (sanitizeInput (jsTrim name)).length) →
      (validatePassword password).1 = false →
      (signUp dev rl now email password name net).1 =
        (rl.canAttempt now "signUp").1.recordAttempt now "signUp" ∧
      (signUp dev rl now email password name net).2.1 = false) := by
  refine ⟨fun hgate hbad => ?_, fun hgate hok hpw => ?_,
    fun hgate hok hname => ?_, fun hgate hok hname hpw => ?_⟩
  · refine ⟨?_, ?_, ?_⟩
    · simp [signIn, hgate, hbad]
    · simp [signIn, hgate, hbad]
    · have hlt := hgate
      simp only [RateLimiter.canAttempt, decide_eq_true_eq] at hlt
      have hnle : ¬ rl.maxAttempts ≤
          ((rl.getFor "signIn").filter (fun t => now - t < rl.windowMs)).length := by omega
      simp [signIn, hgate, hbad, RateLimiter.canAttempt, RateLimiter.recordAttempt,
        getFor_setFor, hnle]
  · constructor
    · simp [signIn, hgate, hok, hpw]
    · simp [signIn, hgate, hok, hpw]
  · refine ⟨?_, ?_, ?_⟩
    · simp [signUp, hgate, hok, hname]
    · simp [signUp, hgate, hok, hname]
    · have hlt := hgate
      simp only [RateLimiter.canAttempt, decide_eq_true_eq] at hlt
      have hnle : ¬ rl.maxAttempts ≤
          ((rl.getFor "signUp").filter (fun t => now - t < rl.windowMs)).length := by omega
      simp [signUp, hgate, hok, hname, RateLimiter.canAttempt, RateLimiter.recordAttempt,
        getFor_setFor, hnle]
  · constructor
    · simp [signUp, hgate, hok, hname, hpw]
    · simp [signUp, hgate, hok, hname, hpw]

/-- Concrete runs of `auth_validation_consumes_attempt`: an invalid email
at `signIn` and a one-character name at `signUp` each leave one recorded
attempt in the respective budget. -/
theorem auth_validation_consumes_attempt_witness :
    ((@signIn Unit false ⟨[], 60000, 5⟩ 0 "not-an-email" "pw"
        (AuthNet.resolved none none) (ProfileNet.resolved false none)).1).getFor "signIn" =
      [0] ∧
    ((@signUp Unit false ⟨[], 60000, 5⟩ 0 "user@example.com" "Abcdefg1" "A"
        (AuthNet.resolved none none)).1).getFor "signUp" = [0] := by
  constructor
  · have h := (@auth_validation_consumes_attempt Unit false ⟨[], 60000, 5⟩ 0
      "not-an-email" "pw" "A" (AuthNet.resolved none none)
      (ProfileNet.resolved false none)).1 (by decide) (by decide)
    simpa using h.2.2
  · have h := (@auth_validation_consumes_attempt Unit false ⟨[], 60000, 5⟩ 0
      "user@example.com" "Abcdefg1" "A" (AuthNet.resolved none none)
      (ProfileNet.resolved false none)).2.2.1 (by decide) (by decide) (by decide)
    simpa using h.2.2

/-! ### Chat synchronizer (src/lib/chat-context.tsx) -/

/-- An entry of the groups or DMs list, reduced to the fields
`togglePin` touches (`id`, `isPinned`); `rest` carries the remaining
fields (name/description/... for groups, otherUser/... for DMs). -/
structure PinEntry (ρ : Type) where
  id : String
  isPinned : Bool
  rest : ρ
deriving DecidableEq, Repr

/-- The comparator `togglePin` passes to `Array.prototype.sort`: orders
only by the pinned flag and answers 0 on ties. -/
def pinCompare {ρ : Type} (a b : PinEntry ρ) : Int :=
  if a.isPinned && !b.isPinned then -1
  else if !a.isPinned && b.isPinned then 1
  else 0

/-- Stable insertion: place `x` before the first element it must strictly
precede (`cmp x y < 0`), hence after every earlier-arrived element it
ties with. -/
def stableInsert {α : Type} (cmp : α → α → Int) (x : α) : List α → List α
  | [] => [x]
  | y :: ys => if cmp x y < 0 then x :: y :: ys else y :: stableInsert cmp x ys

/-- `Array.prototype.sort(cmp)` as guaranteed since ES2019: a stable
sort, modelled by processing elements left to right and stably inserting
each into the already-sorted accumulator. -/
def jsSort {α : Type} (cmp : α → α → Int) (l : List α) : List α :=
  l.foldl (fun acc x => stableInsert cmp x acc) []

/-- `togglePin(type, id)` applied to the relevant list (the source
duplicates identical logic for groups and DMs).  The guard is
`if (res.data)` — truthiness of the parsed JSON body, NOT presence of a
`pinned` field and NOT HTTP success: `resData = some body` is a truthy
parsed body whose optional `pinned` field is `body` (the API client
returns the parsed body even for error statuses, so a JSON error body
arrives here as `some none`); `resData = none` covers no body or a falsy
one (network failure, non-JSON body).  When the guard passes, the
matching entry's flag is set to `res.data.pinned` — `undefined` when the
field is absent, which every Boolean use of `isPinned` reads as `false`
— and the list is re-sorted with the pinned-first comparator. -/
def togglePin {ρ : Type} (entries : List (PinEntry ρ)) (id : String)
    (resData : Option (Option Bool)) : List (PinEntry ρ) :=
  match resData with
  | none => entries
  | some body =>
      jsSort pinCompare
        (entries.map (fun g => if g.id = id then ⟨g.id, body.getD false, g.rest⟩ else g))

/-- Inserting an element that precedes nothing appends it at the end. -/
theorem stableInsert_append_of_not_lt {α : Type} (cmp : α → α → Int) (x : α)
    (l : List α) (h : ∀ y ∈ l, ¬ cmp x y < 0) : stableInsert cmp x l = l ++ [x] := by
  induction l with
  | nil => rfl
  | cons y ys ih =>
    simp only [stableInsert]
    rw [if_neg (h y (List.mem_cons_self y ys))]
    rw [ih (fun z hz => h z (List.mem_cons_of_mem y hz))]
    rfl

/-- Inserting a pinned element into a pinned-prefix/unpinned-suffix list
places it right between the two parts. -/
theorem stableInsert_pinned {ρ : Type} (x : PinEntry ρ) (P U : List (PinEntry ρ))
    (hx : x.isPinned = true)
    (hP : ∀ y ∈ P, y.isPinned = true) (hU : ∀ y ∈ U, y.isPinned = false) :
    stableInsert pinCompare x (P ++ U) = P ++ x :: U := by
  induction P with
  | nil =>
    cases U with
    | nil => rfl
    | cons u us =>
      simp only [List.nil_append, stableInsert]
      rw [if_pos (by simp [pinCompare, hx, hU u (List.mem_cons_self u us)])]
  | cons p ps ih =>
    simp only [List.cons_append, stableInsert]
    rw [if_neg (by simp [pinCompare, hx, hP p (List.mem_cons_self p ps)])]
    exact congrArg (List.cons p) (ih (fun y hy => hP y (List.mem_cons_of_mem p hy)))

/-- An unpinned element never strictly precedes anything under the
pinned-flag comparator. -/
theorem pinCompare_not_lt_of_unpinned {ρ : Type} (x y : PinEntry ρ)
    (hx : x.isPinned = false) : ¬ pinCompare x y < 0 := by
  unfold pinCompare
  rw [hx]
  by_cases hy : y.isPinned = true <;> simp [hy]

/-- Invariant of the sorting fold: starting from a pinned prefix `P` and
unpinned suffix `U`, processing `l` yields the pinned part extended by
`l`'s pinned elements in order, then the unpinned part extended by `l`'s
unpinned elements in order. -/
theorem jsSort_go {ρ : Type} (l : List (PinEntry ρ)) :
    ∀ (P U : List (PinEntry ρ)),
    (∀ y ∈ P, y.isPinned = true) → (∀ y ∈ U, y.isPinned = false) →
    l.foldl (fun acc x => stableInsert pinCompare x acc) (P ++ U) =
      (P ++ l.filter (fun g => g.isPinned)) ++ (U ++ l.filter (fun g => !g.isPinned)) := by
  induction l with
  | nil => intro P U _ _; simp
  | cons x xs ih =>
    intro P U hP hU
    by_cases hx : x.isPinned = true
    · rw [List.foldl_cons, stableInsert_pinned x P U hx hP hU]
      have hP' : ∀ y ∈ P ++ [x], y.isPinned = true := by
        intro y hy
        rcases List.mem_append.mp hy with h | h
        · exact hP y h
        · simp at h; subst h; exact hx
      have h2 := ih (P ++ [x]) U hP' hU
      rw [show P ++ x :: U = (P ++ [x]) ++ U by simp] at *
      rw [h2]
      simp [List.filter_cons, hx]
    · have hx' : x.isPinned = false := by simpa using hx
      rw [List.foldl_cons,
        stableInsert_append_of_not_lt pinCompare x (P ++ U)
          (fun y _ => pinCompare_not_lt_of_unpinned x y hx')]
      have hU' : ∀ y ∈ U ++ [x], y.isPinned = false := by
        intro y hy
        rcases List.mem_append.mp hy with h | h
        · exact hU y h
        · simp at h; subst h; exact hx'
      have h2 := ih P (U ++ [x]) hP hU'
      rw [show (P ++ U) ++ [x] = P ++ (U ++ [x]) by simp]
      rw [h2]
      simp [List.filter_cons, hx']

/-- The pinned-flag comparator under a stable sort is exactly the stable
partition: pinned entries in their original relative order, then
unpinned entries in theirs. -/
theorem jsSort_pinnedFirst {ρ : Type} (l : List (PinEntry ρ)) :
    jsSort pinCompare l =
      l.filter (fun g => g.isPinned) ++ l.filter (fun g => !g.isPinned) := by
  have h := jsSort_go l [] [] (by simp) (by simp)
  simpa [jsSort] using h

/-- Claim C6, counterexample: the list is NOT modified only on success.
A failed post whose response still carried a JSON body — e.g. an HTTP
400 with `\x7b"error": ...\x7d`, which the API client hands back as truthy
`res.data` with no `pinned` field — passes the `if (res.data)` guard, so
`togglePin` sets the matching pinned entry's flag to `undefined` (falsy)
and re-sorts: a pinned entry is unpinned by a failure. -/
theorem togglePin_error_body_mutates_cex :
    togglePin [(⟨"B", true, 1⟩ : PinEntry Nat)] "B" (some none) = [⟨"B", false, 1⟩] ∧
    [(⟨"B", false, 1⟩ : PinEntry Nat)] ≠ [⟨"B", true, 1⟩] := by
  exact ⟨rfl, by decide⟩

/-- Claim C6, amended: `togglePin` modifies the list exactly when the
response body parsed as JSON (`res.data` truthy) — including JSON-bodied
error responses, where the absent `pinned` field acts as the falsy flag;
in that case the matching entry's flag is set to the body's `pinned`
value and the list becomes the stable partition of the updated list —
every pinned entry precedes every unpinned one and relative order inside
each part is preserved.  With no parsed body the list is unchanged. -/
theorem togglePin_stable_partition {ρ : Type} (entries : List (PinEntry ρ)) (id : String)
    (resData : Option (Option Bool)) :
    (resData = none → togglePin entries id resData = entries) ∧
    (∀ body, resData = some body →
      togglePin entries id resData =
        (entries.map (fun g => if g.id = id then ⟨g.id, body.getD false, g.rest⟩ else g)).filter
            (fun g => g.isPinned) ++
          (entries.map (fun g => if g.id = id then ⟨g.id, body.getD false, g.rest⟩ else g)).filter
            (fun g => !g.isPinned)) := by
  refine ⟨fun h => by simp [togglePin, h], fun body hb => ?_⟩
  subst hb
  simp only [togglePin]
  exact jsSort_pinnedFirst _

/-- Concrete run of `togglePin_stable_partition`: the spec's example list
`[A(unpinned), B(pinned), C(unpinned)]`; a successful toggle pinning `A`
yields `[A, B, C]` — both pinned entries precede `C` and `A` enters the
pinned partition in arrival order. -/
theorem togglePin_stable_partition_witness :
    togglePin [(⟨"A", false, 0⟩ : PinEntry Nat), ⟨"B", true, 1⟩, ⟨"C", false, 2⟩]
      "A" (some (some true)) =
      [⟨"A", true, 0⟩, ⟨"B", true, 1⟩, ⟨"C", false, 2⟩] := by
  have h := (togglePin_stable_partition
    [(⟨"A", false, 0⟩ : PinEntry Nat), ⟨"B", true, 1⟩, ⟨"C", false, 2⟩]
    "A" (some (some true))).2 (some true) rfl
  exact h.trans (by decide)

/-- The active conversation `\x7btype: 'group'|'dm', id, data\x7d` (the
non-null alternatives of the `ActiveChat` union in src/lib/types.ts). -/
inductive ActiveChat (γ δ : Type) where
  | group (id : String) (data : γ)
  | dm (id : String) (data : δ)
deriving DecidableEq, Repr

/-- The target discriminators a message-post body can carry. -/
inductive MsgTarget where
  | groupId (id : String)
  | dmId (id : String)
deriving DecidableEq, Repr

/-- The body posted to the messages endpoint by `sendMessage`. -/
structure MsgBody where
  target : MsgTarget
  content : String
deriving DecidableEq, Repr

/-- The discriminator matching a chat's kind: `groupId` for groups,
`dmId` for DMs. -/
def ActiveChat.target {γ δ : Type} : ActiveChat γ δ → MsgTarget
  | .group id _ => .groupId id
  | .dm id _ => .dmId id

/-- `sendMessage(content)`: guard on an active chat and non-blank
content, then the post (whose outcome is `resMessage = res.data?.message`
and `resError = res.error`).  Returns the body posted (if any), the new
message list, and the result pair. -/
def sendMessage {γ δ μ : Type} (active : Option (ActiveChat γ δ)) (msgs : List μ)
    (content : String) (resMessage : Option μ) (resError : Option String) :
    Option MsgBody × List μ × Bool × Option String :=
  match active with
  | none => (none, msgs, false, some "No active chat or empty message")
  | some chat =>
    if jsTrim content = "" then
      (none, msgs, false, some "No active chat or empty message")
    else
      match resMessage with
      | some m => (some ⟨chat.target, content⟩, msgs ++ [m], true, none)
      | none => (some ⟨chat.target, content⟩, msgs, false,
          some (jsOr resError "Failed to send message"))

/-- Claim C8: with no active chat or blank content `sendMessage` fails
without posting; otherwise it posts with the discriminator matching the
active chat's kind, and the server-returned message is appended exactly
on success. -/
theorem sendMessage_guard_and_append {γ δ μ : Type} (active : Option (ActiveChat γ δ))
    (msgs : List μ) (content : String) (resMessage : Option μ) (resError : Option String) :
    ((active = none ∨ jsTrim content = "") →
      sendMessage active msgs content resMessage resError =
        (none, msgs, false, some "No active chat or empty message")) ∧
    (∀ chat, active = some chat → jsTrim content ≠ "" →
      (∀ m, resMessage = some m →
        sendMessage active msgs content resMessage resError =
          (some ⟨chat.target, content⟩, msgs ++ [m], true, none)) ∧
      (resMessage = none →
        sendMessage active msgs content resMessage resError =
          (some ⟨chat.target, content⟩, msgs, false,
            some (jsOr resError "Failed to send message")))) := by
  constructor
  · rintro (rfl | hblank)
    · rfl
    · cases active with
      | none => rfl
      | some chat => simp [sendMessage, hblank]
  · rintro chat rfl hcontent
    constructor
    · rintro m rfl
      simp [sendMessage, hcontent]
    · rintro rfl
      simp [sendMessage, hcontent]

/-- Concrete runs of `sendMessage_guard_and_append`: blank content
`"   "` fails without a post, and a successful post to a group appends
the echoed message. -/
theorem sendMessage_guard_and_append_witness :
    @sendMessage Unit Unit Nat (some (.group "g1" ())) [7] "   " (some 9) none =
      (none, [7], false, some "No active chat or empty message") ∧
    @sendMessage Unit Unit Nat (some (.group "g1" ())) [7] "hi" (some 9) none =
      (some ⟨.groupId "g1", "hi"⟩, [7, 9], true, none) := by
  constructor
  · exact (sendMessage_guard_and_append (some (.group "g1" ())) [7] "   "
      (some 9) none).1 (Or.inr (by decide))
  · exact ((sendMessage_guard_and_append (some (.group "g1" ())) [7] "hi"
      (some 9) none).2 (.group "g1" ()) rfl (by decide)).1 9 rfl

/-- A DM record as returned by the DMs endpoint: `id` plus the remaining
fields. -/
structure DMRec (ρ : Type) where
  id : String
  rest : ρ
deriving DecidableEq, Repr

/-- `startDM(username)`: posts to the DMs endpoint; on `status === 200`
with a `dm` in the body it refetches the DM list and replaces the active
chat with the new DM; on anything else everything is left unchanged.
Returns (new active chat, whether fetchDMs ran, result pair). -/
def startDM {γ ρ : Type} (active : Option (ActiveChat γ (DMRec ρ)))
    (resStatus : Int) (resDM : Option (DMRec ρ)) (resError : Option String) :
    Option (ActiveChat γ (DMRec ρ)) × Bool × Bool × Option String :=
  if resStatus = 200 then
    match resDM with
    | some dm => (some (.dm dm.id dm), true, true, none)
    | none => (active, false, false, some (jsOr resError "Failed to start conversation"))
  else (active, false, false, some (jsOr resError "Failed to start conversation"))

/-- Claim C10: a successful `startDM` (status 200 with a `dm` body)
refetches the DM list and replaces the active chat with the new DM; any
failure leaves the active chat unchanged. -/
theorem startDM_sets_active {γ ρ : Type} (active : Option (ActiveChat γ (DMRec ρ)))
    (resStatus : Int) (resDM : Option (DMRec ρ)) (resError : Option String) :
    (∀ dm, resStatus = 200 → resDM = some dm →
      startDM active resStatus resDM resError =
        (some (.dm dm.id dm), true, true, none)) ∧
    ((resStatus ≠ 200 ∨ resDM = none) →
      (startDM active resStatus resDM resError).1 = active ∧
      (startDM active resStatus resDM resError).2.1 = false ∧
      (startDM active resStatus resDM resError).2.2.1 = false) := by
  constructor
  · rintro dm rfl rfl
    simp [startDM]
  · rintro (hstatus | hdm)
    · simp [startDM, hstatus]
    · subst hdm
      by_cases h : resStatus = 200 <;> simp [startDM, h]

/-- Concrete runs of `startDM_sets_active`: a 200 response carrying a DM
replaces the active chat, and a 404 leaves it alone. -/
theorem startDM_sets_active_witness :
    @startDM Unit Unit none 200 (some ⟨"d9", ()⟩) none =
      (some (.dm "d9" ⟨"d9", ()⟩), true, true, none) ∧
    (@startDM Unit Unit (some (.dm "old" ⟨"old", ()⟩)) 404 none (some "no user")).1 =
      some (.dm "old" ⟨"old", ()⟩) := by
  constructor
  · exact (startDM_sets_active none 200 (some ⟨"d9", ()⟩) none).1 ⟨"d9", ()⟩ rfl rfl
  · exact ((startDM_sets_active (some (.dm "old" ⟨"old", ()⟩)) 404 none
      (some "no user")).2 (Or.inl (by decide))).1

end Nox
